import Mathlib

/-!
Verification development for the muse music-recommendation engine.

The Rust sources are shallowly embedded: pure functions become Lean
functions, `f64` arithmetic is idealised over `ℝ` (scoring) or `ℚ`
(time arithmetic in the tracker), SQLite tables become lists of rows,
and the randomness / wall-clock inputs of the effectful code become
explicit oracle parameters.  Each embedded definition mirrors one Rust
function and is named after it.
-/

namespace Muse

/-! ### Data model (src/db.rs `Song`, src/db.rs `connections` rows) -/

/-- Embedding of `db::Song` (src/db.rs).  `i64` ids become `Int`;
`u32` counters become `Nat`. -/
structure Song where
  id : Int
  path : String
  artist : String
  album : String
  title : String
  touches : Nat
  listens : Nat
  skips : Nat
  loved : Bool
deriving DecidableEq, Repr

/-- One row of the `connections` table (src/db.rs): the schema has
`UNIQUE(from_song_id, to_song_id)` and `count INTEGER DEFAULT 1`. -/
structure ConnRow where
  fromSongId : Int
  toSongId : Int
  count : Nat
deriving DecidableEq, Repr

/-! ### Scoring (src/algorithm.rs) -/

/-- Embedding of `algorithm::WeightConfig`. -/
structure WeightConfig where
  early_exploration : Nat × Nat
  learning_phase : Nat × Nat
  stable_preferences : Nat × Nat
  small_threshold : Nat
  big_threshold : Nat
deriving DecidableEq, Repr

/-- Embedding of `algorithm::ScoringContext`; the `f64` parameters are
idealised as real numbers. -/
structure ScoringContext where
  touch_threshold : Nat
  dampening_base : ℝ
  love_multiplier : ℝ
  weights : WeightConfig

/-- The `Default` impl of `ScoringContext` (src/algorithm.rs). -/
noncomputable def defaultScoringContext : ScoringContext :=
  { touch_threshold := 30
    dampening_base := 1.2
    love_multiplier := 2.0
    weights :=
      { early_exploration := (4, 1)
        learning_phase := (2, 2)
        stable_preferences := (1, 4)
        small_threshold := 5
        big_threshold := 15 } }

/-- Embedding of `algorithm::determine_weights`: the `match` with guards
`t < small_threshold` / `t <= big_threshold`. -/
def determine_weights (touches : Nat) (config : WeightConfig) : Nat × Nat :=
  if touches < config.small_threshold then config.early_exploration
  else if touches ≤ config.big_threshold then config.learning_phase
  else config.stable_preferences

/-- Embedding of `algorithm::calculate_weighted_score`. -/
noncomputable def calculate_weighted_score (song : Song) (weights : WeightConfig) : ℝ :=
  let w := determine_weights song.touches weights
  (w.1 : ℝ) * (song.listens : ℝ) - (w.2 : ℝ) * (song.skips : ℝ)

/-- Embedding of `algorithm::calculate_dampened_score`; Rust
`f64::log(x, base)` is `Real.log x / Real.log base`. -/
noncomputable def calculate_dampened_score (song : Song) (dampening_base : ℝ) : ℝ :=
  (Real.log ((song.touches : ℝ) + 1) / Real.log dampening_base) *
    ((song.listens : ℝ) - (song.skips : ℝ))

/-- Embedding of `algorithm::apply_love_multiplier`. -/
noncomputable def apply_love_multiplier (score : ℝ) (loved : Bool) (multiplier : ℝ) : ℝ :=
  if loved then score * multiplier else score

/-- The pure computation performed by `algorithm::calculate_score_functional`
on a cache miss: piecewise base score, clamp at 0, love multiplier.
The global `SCORE_CACHE` of the source is modelled explicitly by
`calculate_score_cached` below. -/
noncomputable def calculate_score_functional (song : Song) (context : ScoringContext) : ℝ :=
  let base_score :=
    if song.touches < context.touch_threshold then
      calculate_weighted_score song context.weights
    else
      calculate_dampened_score song context.dampening_base
  apply_love_multiplier (max base_score 0) song.loved context.love_multiplier

/-- Embedding of `algorithm::SongFingerprint`. -/
structure SongFingerprint where
  touches : Nat
  listens : Nat
  skips : Nat
  loved : Bool
deriving DecidableEq, Repr

/-- The `From<&Song>` impl for `SongFingerprint`. -/
def songFingerprint (song : Song) : SongFingerprint :=
  { touches := song.touches, listens := song.listens
    skips := song.skips, loved := song.loved }

/-- Lookup in the score cache, modelled as an association list keyed by
fingerprints (the source keys its `HashMap` by `SongFingerprint` only —
the context is not part of the key). -/
def cacheLookup (cache : List (SongFingerprint × ℝ)) (fp : SongFingerprint) : Option ℝ :=
  (cache.find? (fun e => e.1 == fp)).map (fun e => e.2)

/-- Embedding of `algorithm::calculate_score_functional` with its global
`SCORE_CACHE` made an explicit argument and result: on a hit the cached
value is returned unchanged; on a miss the pure score is computed,
inserted under the fingerprint, and the whole cache is cleared when its
size exceeds 10000. -/
noncomputable def calculate_score_cached (cache : List (SongFingerprint × ℝ))
    (song : Song) (context : ScoringContext) : ℝ × List (SongFingerprint × ℝ) :=
  let fp := songFingerprint song
  match cacheLookup cache fp with
  | some v => (v, cache)
  | none =>
    let final_score := calculate_score_functional song context
    let cache1 := (fp, final_score) :: cache
    (final_score, if 10000 < cache1.length then [] else cache1)

/-- Written from the words of claim C1 (spec §4.3 with default
parameters): regimes `early` for `t < 5`, `learning` for `t ≤ 15`,
`stable` for `15 < t < 30`, logarithmic dampening for `t ≥ 30`; the
clamped base is doubled for a loved song.  To be compared with the
source-level `calculate_score_functional`. -/
noncomputable def specPiecewiseScoreDefault (song : Song) : ℝ :=
  let base : ℝ :=
    if 30 ≤ song.touches then
      (Real.log ((song.touches : ℝ) + 1) / Real.log 1.2) *
        ((song.listens : ℝ) - (song.skips : ℝ))
    else
      let w : Nat × Nat :=
        if song.touches < 5 then (4, 1)
        else if song.touches ≤ 15 then (2, 2)
        else (1, 4)
      (w.1 : ℝ) * (song.listens : ℝ) - (w.2 : ℝ) * (song.skips : ℝ)
  max base 0 * (if song.loved then (2 : ℝ) else 1)

/-! ### Catalogue operations on the `connections` table (src/db.rs) -/

/-- Embedding of `db::update_connection`: the SQL upsert
`INSERT ... VALUES (from, to, 1) ON CONFLICT(from_song_id, to_song_id)
DO UPDATE SET count = count + 1`.  On a table whose `(from, to)` keys
are unique this increments the single matching row, otherwise it
appends a fresh row with count 1. -/
def update_connection (rows : List ConnRow) (from_id to_id : Int) : List ConnRow :=
  match rows with
  | [] => [⟨from_id, to_id, 1⟩]
  | r :: rest =>
    if r.fromSongId = from_id ∧ r.toSongId = to_id then
      { r with count := r.count + 1 } :: rest
    else
      r :: update_connection rest from_id to_id

/-- Count stored for the edge `(a, b)`, `none` when no row matches. -/
def connLookup (rows : List ConnRow) (a b : Int) : Option Nat :=
  (rows.find? (fun r => r.fromSongId == a && r.toSongId == b)).map (fun r => r.count)

/-- Number of rows of the table matching the key `(a, b)`. -/
def keyCount (rows : List ConnRow) (a b : Int) : Nat :=
  rows.countP (fun r => r.fromSongId == a && r.toSongId == b)

/-- k-fold iteration of `update_connection` on the same edge. -/
def iterate_update_connection (rows : List ConnRow) (a b : Int) : Nat → List ConnRow
  | 0 => rows
  | k + 1 => update_connection (iterate_update_connection rows a b k) a b

/-- The join produced by the query in `db::get_song_connections` before
its `ORDER BY`: connection rows with the requested `from_song_id`, each
joined to the target song, in table order. -/
def joinedConnections (conns : List ConnRow) (songs : List Song) (song_id : Int) :
    List (Song × Nat) :=
  conns.filterMap (fun r =>
    if r.fromSongId = song_id then
      (songs.find? (fun s => s.id == r.toSongId)).map (fun s => (s, r.count))
    else none)

/-- Comparator realising the query's `ORDER BY c.count DESC`. -/
def countGE (x y : Song × Nat) : Prop := y.2 ≤ x.2

instance : DecidableRel countGE :=
  fun x y => inferInstanceAs (Decidable (y.2 ≤ x.2))

instance : IsTotal (Song × Nat) countGE :=
  ⟨fun a b => le_total b.2 a.2⟩

instance : IsTrans (Song × Nat) countGE :=
  ⟨fun _ _ _ h1 h2 => le_trans h2 h1⟩

/-- Embedding of `db::get_song_connections`: the sole ordering imposed by
the SQL is `count DESC`; ties are modelled in table order (a stable sort),
since the query specifies no further ordering. -/
def get_song_connections (conns : List ConnRow) (songs : List Song) (song_id : Int) :
    List (Song × Nat) :=
  List.insertionSort countGE (joinedConnections conns songs song_id)

/-- Written from the words of claim C8: count descending, ties by target
song id ascending. -/
def claimOrder (x y : Song × Nat) : Prop :=
  y.2 < x.2 ∨ (x.2 = y.2 ∧ x.1.id < y.1.id)

instance : DecidableRel claimOrder :=
  fun x y => inferInstanceAs (Decidable (y.2 < x.2 ∨ (x.2 = y.2 ∧ x.1.id < y.1.id)))

/-! ### Behaviour-tracking daemon (src/daemon.rs) -/

/-- Embedding of `daemon::PlayingState`; instants and durations become
rationals (seconds). -/
structure PlayingState where
  mpd_path : String
  song_id : Int
  start_time : ℚ
  duration : Option ℚ
  touches_tracked : Bool
deriving DecidableEq, Repr

/-- Counter columns of one `songs` row. -/
structure SongStats where
  touches : Nat
  listens : Nat
  skips : Nat
deriving DecidableEq, Repr

/-- Abstract catalogue state touched by the daemon: the counter columns
of every song id, and the `connections` table. -/
structure DbState where
  stats : Int → SongStats
  conns : List ConnRow

/-- Increment guarded by a flag. -/
def bump (b : Bool) (n : Nat) : Nat := if b then n + 1 else n

/-- Embedding of `db::update_song_stats`: each flag independently adds 1
to its column of the addressed song's row. -/
def update_song_stats (db : DbState) (song_id : Int)
    (touched listened skipped : Bool) : DbState :=
  { db with
    stats := fun i =>
      if i = song_id then
        { touches := bump touched (db.stats i).touches
          listens := bump listened (db.stats i).listens
          skips := bump skipped (db.stats i).skips }
      else db.stats i }

/-- The listen/skip classification inside `daemon::handle_song_ended`:
with a known duration, `played / duration > 0.8`; without one, Rust's
`play_duration.as_secs() >= 30`, i.e. the truncated number of seconds is
at least 30. -/
def wasListened (st : PlayingState) (now : ℚ) : Bool :=
  let played := now - st.start_time
  match st.duration with
  | some d => decide ((4 : ℚ) / 5 < played / d)
  | none => decide ((30 : ℤ) ≤ ⌊played⌋)

/-- Written from the words of claim C2: listened iff the play ratio
exceeds 0.8 when the duration is known, else iff at least 30 seconds
were played. -/
def listenedSpec (st : PlayingState) (now : ℚ) : Prop :=
  match st.duration with
  | some d => (4 : ℚ) / 5 < (now - st.start_time) / d
  | none => (30 : ℚ) ≤ now - st.start_time

/-- Embedding of the database effect of `daemon::handle_song_ended`:
a listen bumps the subject's `listens` and, when the next path resolves
to a known id, upserts the connection edge; a skip bumps `skips` only.
(The `resolve` oracle combines `path_translator::mpd_relative_to_absolute`
with the `SELECT id FROM songs WHERE path = ?` lookup; console
notifications are dropped.) -/
def handle_song_ended (db : DbState) (resolve : String → Option Int)
    (st : PlayingState) (next_mpd_path : Option String) (now : ℚ) : DbState :=
  if wasListened st now then
    let db1 := update_song_stats db st.song_id false true false
    match next_mpd_path with
    | some next_path =>
      match resolve next_path with
      | some next_id => { db1 with conns := update_connection db1.conns st.song_id next_id }
      | none => db1
    | none => db1
  else
    update_song_stats db st.song_id false false true

/-- Embedding of one observed `mpc status` (src/mpd_client.rs fields the
daemon consumes). -/
structure MpdStatus where
  state : String
  current_song : Option String
  elapsed : ℚ
  duration : Option ℚ
deriving DecidableEq, Repr

/-- One finalization performed by the daemon: which `PlayingState` was
closed, with which next path, at which time. -/
structure FinEvent where
  st : PlayingState
  next : Option String
  time : ℚ
deriving DecidableEq, Repr

/-- Embedding of `daemon::start_tracking_song`: path resolution plus the
id lookup either yield a fresh state (with `start_time = now`,
`touches_tracked = false`) or fail, in which case the Rust function
returns `Err` before ever assigning `self.current_state`. -/
def start_tracking_song (resolve : String → Option Int) (mpd_path : String)
    (duration : Option ℚ) (now : ℚ) : Option PlayingState :=
  (resolve mpd_path).map (fun song_id =>
    { mpd_path := mpd_path, song_id := song_id, start_time := now
      duration := duration, touches_tracked := false })

/-- Embedding of `daemon::handle_playing_song`, returning the new tracker
state together with the finalizations performed.  On a new song the prior
state (if any) is finalized first; if the new song cannot be resolved the
error propagates and `current_state` keeps its old (already finalized)
value.  On the same song, touches are tracked once after 3 seconds (the
flag update; the accompanying one-off touches bump of the catalogue is
not part of the finalization effects modelled here). -/
def handle_playing_song (resolve : String → Option Int) (cur : Option PlayingState)
    (mpd_path : String) (elapsed : ℚ) (duration : Option ℚ) (now : ℚ) :
    Option PlayingState × List FinEvent :=
  let is_new_song : Bool :=
    match cur with
    | some s => s.mpd_path != mpd_path
    | none => true
  if is_new_song then
    let fins : List FinEvent :=
      match cur with
      | some prev => [⟨prev, some mpd_path, now⟩]
      | none => []
    match start_tracking_song resolve mpd_path duration now with
    | some st => (some st, fins)
    | none => (cur, fins)
  else
    (cur.map (fun s =>
      if !s.touches_tracked && decide (3 < elapsed) then { s with touches_tracked := true }
      else s), [])

/-- Embedding of `daemon::handle_player_event`: dispatch on the status
string; `play` delegates to `handle_playing_song`, `stop` finalizes with
no next song and clears the state, `pause` and unknown states do
nothing. -/
def handle_player_event (resolve : String → Option Int) (cur : Option PlayingState)
    (status : MpdStatus) (now : ℚ) : Option PlayingState × List FinEvent :=
  if status.state = "play" then
    match status.current_song with
    | some song => handle_playing_song resolve cur song status.elapsed status.duration now
    | none => (cur, [])
  else if status.state = "pause" then
    (cur, [])
  else if status.state = "stop" then
    match cur with
    | some st => (none, [⟨st, none, now⟩])
    | none => (none, [])
  else
    (cur, [])

/-- Database effect of a list of finalizations, in order. -/
def apply_finalizations (db : DbState) (resolve : String → Option Int)
    (evs : List FinEvent) : DbState :=
  evs.foldl (fun d e => handle_song_ended d resolve e.st e.next e.time) db

/-! ### Path translation (src/path_translator.rs) -/

/-- A filesystem path, abstracted as its components plus whether it is
absolute.  Separator normalisation is the identity on Unix, so the
string/`PathBuf` representations of the source both reduce to this. -/
structure FsPath where
  absolute : Bool
  comps : List String
deriving DecidableEq, Repr

/-- Embedding of `path_translator::absolute_to_mpd_relative` for a given
music root: reject non-absolute inputs, strip the root prefix
(component-wise, as `Path::strip_prefix` does), reject an empty
remainder. -/
def absolute_to_mpd_relative (music_dir : FsPath) (p : FsPath) : Option (List String) :=
  if !p.absolute then none
  else if music_dir.absolute = p.absolute then
    if music_dir.comps.isPrefixOf p.comps then
      let rel := p.comps.drop music_dir.comps.length
      if rel.isEmpty then none else some rel
    else none
  else none

/-- Embedding of `path_translator::mpd_relative_to_absolute`: reject the
empty relative path, otherwise join under the music root. -/
def mpd_relative_to_absolute (music_dir : FsPath) (relative : List String) : Option FsPath :=
  if relative.isEmpty then none
  else some ⟨music_dir.absolute, music_dir.comps ++ relative⟩

/-! ### Queue generation (src/queue.rs) -/

/-- Embedding of `queue::QueueConfig` (`f64` factors as rationals). -/
structure QueueConfig where
  min_length : Nat
  max_length : Nat
  diversity_factor : ℚ
  exploration_ratio : ℚ
deriving DecidableEq, Repr

/-- The `Default` impl of `QueueConfig`. -/
def defaultQueueConfig : QueueConfig :=
  { min_length := 9, max_length := 27
    diversity_factor := 7 / 10, exploration_ratio := 3 / 10 }

/-- Queue-generation failure (`anyhow::bail!` on a too-short queue). -/
inductive QueueError where
  | queueTooShort
deriving DecidableEq, Repr

instance {e a : Type} [DecidableEq e] [DecidableEq a] : DecidableEq (Except e a) := fun x y =>
  match x, y with
  | .error u, .error v =>
    if h : u = v then .isTrue (by rw [h]) else .isFalse (by intro hc; injection hc; exact h (by assumption))
  | .error _, .ok _ => .isFalse (by intro hc; cases hc)
  | .ok _, .error _ => .isFalse (by intro hc; cases hc)
  | .ok u, .ok v =>
    if h : u = v then .isTrue (by rw [h]) else .isFalse (by intro hc; injection hc; exact h (by assumption))

/-- Embedding of `queue::get_random_song_functional`:
`SELECT * FROM songs WHERE id NOT IN visited ORDER BY RANDOM() LIMIT 1`.
The random choice is an oracle index into the eligible rows; `none`
exactly when no song is eligible. -/
def get_random_song_functional (table : List Song) (visited : List Int)
    (ridx : Nat) : Option Song :=
  let eligible := table.filter (fun s => decide (s.id ∉ visited))
  if eligible.isEmpty then none else eligible.get? (ridx % eligible.length)

/-- The `while queue.len() < min_length` loop of
`queue::extend_queue_functionally`.  Each iteration draws a random song
with an *empty* exclusion set (`&HashSet::new()` in the source); a draw
whose path is in `visited0` — the paths of the *original* queue, computed
once and never updated — breaks the loop, any other draw is appended.
`left` is the number of iterations the condition still admits,
`min_length - queue.length`; it decreases by one per append exactly as
the condition `queue.len() < min_length` demands. -/
def extendLoop (visited0 : List String) (table : List Song) (ridx : Nat → Nat) :
    Nat → Nat → List Song → List Song
  | 0, _, queue => queue
  | left + 1, step, queue =>
    match get_random_song_functional table [] (ridx step) with
    | none => queue
    | some s =>
      if s.path ∈ visited0 then queue
      else extendLoop visited0 table ridx left (step + 1) (queue ++ [s])

/-- Embedding of `queue::extend_queue_functionally`: pad the queue with
random draws, fail when still below `min_length`, truncate to
`max_length`.  The queue is modelled by the underlying `Song` rows (the
source stores `QueuedSongV2` projections of them; only `path` is
consulted here). -/
def extend_queue_functionally (queue : List Song) (config : QueueConfig)
    (table : List Song) (ridx : Nat → Nat) : Except QueueError (List Song) :=
  let visited := queue.map Song.path
  let extended := extendLoop visited table ridx (config.min_length - queue.length) 0 queue
  if extended.length < config.min_length then .error .queueTooShort
  else .ok (extended.take config.max_length)

/-- Fold step of Rust's `Iterator::max_by` under
`partial_cmp(..).unwrap_or(Equal)`: keep the accumulator only when the
new element compares strictly below it (so the last maximum wins). -/
noncomputable def maxStep (acc x : Song × ℝ) : Song × ℝ :=
  if x.2 < acc.2 then acc else x

/-- Rust's `max_by` over the second component: `none` on the empty
list. -/
noncomputable def maxBySnd : List (Song × ℝ) → Option (Song × ℝ)
  | [] => none
  | x :: xs => some (xs.foldl maxStep x)

/-- Embedding of `queue::select_next_song_probabilistically`: `none` when
fewer than 3 connections exist or no unvisited candidate remains;
otherwise the coin oracle picks exploration (uniform choice, modelled by
an index oracle) or exploitation (best score under the default
context, as in the source). -/
noncomputable def select_next_song_probabilistically (graph : Int → List (Song × Nat))
    (current_id : Int) (visited : List Int) (explore : Bool) (choose : Nat) :
    Option Song :=
  let connections := graph current_id
  if connections.length < 3 then none
  else
    let candidates := connections.filter (fun p => decide (p.1.id ∉ visited))
    if candidates.isEmpty then none
    else if explore then
      (candidates.get? (choose % candidates.length)).map Prod.fst
    else
      (maxBySnd (candidates.map (fun p =>
        (p.1, calculate_score_functional p.1 defaultScoringContext)))).map Prod.fst

/-- The `while queue.len() < 30` loop of `StreamQueueStrategy::generate`:
probabilistic step first, random fallback second, stop when both fail.
Every appended song's id is inserted into `visited` before the next
iteration.  `left` counts the iterations the loop condition still
admits (`30 - queue.length`). -/
noncomputable def streamLoop (graph : Int → List (Song × Nat)) (table : List Song)
    (explore : Nat → Bool) (choose ridx : Nat → Nat) :
    Nat → Nat → Int → List Int → List Song → List Song
  | 0, _, _, _, queue => queue
  | left + 1, step, current_id, visited, queue =>
    match select_next_song_probabilistically graph current_id visited
        (explore step) (choose step) with
    | some s =>
      streamLoop graph table explore choose ridx left (step + 1) s.id
        (s.id :: visited) (queue ++ [s])
    | none =>
      match get_random_song_functional table visited (ridx step) with
      | some s =>
        streamLoop graph table explore choose ridx left (step + 1) s.id
          (s.id :: visited) (queue ++ [s])
      | none => queue

/-- Embedding of `StreamQueueStrategy::generate`: the queue starts with
the seed, the visited set with the seed's id; the loop runs while the
length is below 30.  The result is the list of chosen songs (the source
maps `convert_song_to_queued` over exactly these). -/
noncomputable def stream_generate (graph : Int → List (Song × Nat)) (table : List Song)
    (explore : Nat → Bool) (choose ridx : Nat → Nat) (starting_song : Song) :
    List Song :=
  streamLoop graph table explore choose ridx (30 - 1) 0 starting_song.id
    [starting_song.id] [starting_song]

/-! ### Concrete inputs used by counterexamples and witnesses -/

/-- Scenario 1 of the spec: `{touches=3, listens=2, skips=1, loved=false}`. -/
def exEarly : Song := ⟨1, "p1", "ar", "al", "t1", 3, 2, 1, false⟩

/-- Scenario 2 of the spec: `{touches=20, listens=5, skips=12, loved=false}`. -/
def exStable : Song := ⟨2, "p2", "ar", "al", "t2", 20, 5, 12, false⟩

/-- Scenario 3 of the spec: `{touches=100, listens=60, skips=20, loved=true}`. -/
def exDampLoved : Song := ⟨3, "p3", "ar", "al", "t3", 100, 60, 20, true⟩

/-- A loved song with a strictly positive clamped base score. -/
def exLovedSimple : Song := ⟨4, "p4", "ar", "al", "t4", 0, 1, 0, true⟩

/-- Same fingerprint as `exEarly`, different identity fields. -/
def exEarlyAlt : Song := ⟨5, "q1", "br", "bl", "u1", 3, 2, 1, false⟩

/-- Default context with a negated love multiplier (all parameters
finite). -/
noncomputable def negLoveContext : ScoringContext :=
  { defaultScoringContext with love_multiplier := -1 }

/-- Default context with different early-exploration weights. -/
noncomputable def altWeightContext : ScoringContext :=
  { defaultScoringContext with
    weights := { defaultScoringContext.weights with early_exploration := (1, 1) } }

/-- Target song with id 2 for the tie-break counterexample. -/
def songTwo : Song := ⟨2, "pa2", "a2", "b2", "t2", 0, 0, 0, false⟩

/-- Target song with id 3 for the tie-break counterexample. -/
def songThree : Song := ⟨3, "pa3", "a3", "b3", "t3", 0, 0, 0, false⟩

/-- Two edges out of song 1 with equal counts, targets in table order
3 then 2. -/
def tieConns : List ConnRow := [⟨1, 3, 2⟩, ⟨1, 2, 2⟩]

/-- Songs table for the tie-break counterexample. -/
def tieSongs : List Song := [songTwo, songThree]

/-- Catalogue state whose every song row has touches 5 and no listens,
skips or edges. -/
def db0 : DbState := ⟨fun _ => ⟨5, 0, 0⟩, []⟩

/-- Resolver knowing paths "a" (id 1) and "b" (id 2). -/
def resolveAB : String → Option Int :=
  fun p => if p = "a" then some 1 else if p = "b" then some 2 else none

/-- Resolver knowing only path "a" (id 1): path "b" is absent from the
catalogue. -/
def resolveOnlyA : String → Option Int :=
  fun p => if p = "a" then some 1 else none

/-- Episode of song 1 ("a") started at time 0, duration unknown. -/
def stNoDur : PlayingState := ⟨"a", 1, 0, none, false⟩

/-- Status observation: playing "a" from the start. -/
def playA : MpdStatus := ⟨"play", some "a", 0, none⟩

/-- Status observation: playing "b" from the start. -/
def playB : MpdStatus := ⟨"play", some "b", 0, none⟩

/-- Music root `/home/user/Music`. -/
def rootMusic : FsPath := ⟨true, ["home", "user", "Music"]⟩

/-- An absolute path strictly under `rootMusic`. -/
def absSongPath : FsPath := ⟨true, ["home", "user", "Music", "artist", "song.flac"]⟩

/-- First song of the extension counterexample's table. -/
def songA9 : Song := ⟨1, "a.flac", "A", "A", "A", 0, 0, 0, false⟩

/-- Second song of the extension counterexample's table. -/
def songB9 : Song := ⟨2, "b.flac", "B", "B", "B", 0, 0, 0, false⟩

/-! ### Numeric bounds for the dampening logarithm -/

set_option exponentiation.threshold 300000 in
set_option maxRecDepth 10000 in
theorem pow_bound_lb_nat : 6 ^ 25313 < 101 ^ 1000 * 5 ^ 25313 := by decide

set_option exponentiation.threshold 300000 in
set_option maxRecDepth 10000 in
theorem pow_bound_ub_nat : 101 ^ 2500 * 5 ^ 63283 < 6 ^ 63283 := by decide

theorem log_sixfifth_pos : (0 : ℝ) < Real.log (6 / 5) :=
  Real.log_pos (by norm_num)

theorem pow_ratio_ub : Real.log 101 / Real.log (6 / 5) < 63283 / 2500 := by
  rw [div_lt_iff₀ log_sixfifth_pos]
  have key : (101 : ℝ) ^ (2500 : ℕ) < (6 / 5 : ℝ) ^ (63283 : ℕ) := by
    rw [div_pow, lt_div_iff₀ (by positivity)]
    have h := pow_bound_ub_nat
    calc (101 : ℝ) ^ (2500 : ℕ) * 5 ^ (63283 : ℕ)
        = ((101 ^ 2500 * 5 ^ 63283 : ℕ) : ℝ) := by push_cast; ring
      _ < ((6 ^ 63283 : ℕ) : ℝ) := by exact_mod_cast h
      _ = (6 : ℝ) ^ (63283 : ℕ) := by push_cast; ring
  have h2 := Real.log_lt_log (by positivity) key
  rw [Real.log_pow, Real.log_pow] at h2
  push_cast at h2
  linarith

theorem pow_ratio_lb : 25313 / 1000 < Real.log 101 / Real.log (6 / 5) := by
  rw [lt_div_iff₀ log_sixfifth_pos]
  have key : (6 / 5 : ℝ) ^ (25313 : ℕ) < (101 : ℝ) ^ (1000 : ℕ) := by
    rw [div_pow, div_lt_iff₀ (by positivity)]
    have h := pow_bound_lb_nat
    calc (6 : ℝ) ^ (25313 : ℕ)
        = ((6 ^ 25313 : ℕ) : ℝ) := by push_cast; ring
      _ < ((101 ^ 1000 * 5 ^ 25313 : ℕ) : ℝ) := by exact_mod_cast h
      _ = (101 : ℝ) ^ (1000 : ℕ) * 5 ^ (25313 : ℕ) := by push_cast; ring
  have h2 := Real.log_lt_log (by positivity) key
  rw [Real.log_pow, Real.log_pow] at h2
  push_cast at h2
  linarith

/-! ### Scoring helper evaluations -/

theorem apply_love_multiplier_two (x : ℝ) (b : Bool) :
    apply_love_multiplier x b 2 = x * (if b then (2 : ℝ) else 1) := by
  cases b <;> simp [apply_love_multiplier]

theorem score_exEarly_default :
    calculate_score_functional exEarly defaultScoringContext = 7 := by
  simp only [calculate_score_functional, exEarly, defaultScoringContext,
    calculate_weighted_score, determine_weights, apply_love_multiplier]
  norm_num

theorem score_exStable_default :
    calculate_score_functional exStable defaultScoringContext = 0 := by
  simp only [calculate_score_functional, exStable, defaultScoringContext,
    calculate_weighted_score, determine_weights, apply_love_multiplier]
  norm_num

theorem score_exEarly_alt :
    calculate_score_functional exEarly altWeightContext = 1 := by
  simp only [calculate_score_functional, exEarly, altWeightContext, defaultScoringContext,
    calculate_weighted_score, determine_weights, apply_love_multiplier]
  norm_num

theorem score_exDampLoved_eq :
    calculate_score_functional exDampLoved defaultScoringContext
      = Real.log 101 / Real.log (6 / 5) * 40 * 2 := by
  have h101 : (0 : ℝ) ≤ Real.log 101 := Real.log_nonneg (by norm_num)
  have hb : (1.2 : ℝ) = 6 / 5 := by norm_num
  simp only [calculate_score_functional, exDampLoved, defaultScoringContext,
    calculate_dampened_score, apply_love_multiplier]
  norm_num [hb]
  positivity

/-- C1.  Counterexample: with the default context, the spec's third
scenario is wrong.  The score of `{touches=100, listens=60, skips=20,
loved=true}` is `2·40·log_1.2(101) ≈ 2025.05`, not within `±0.01` of
`2025.69` (the spec misevaluates `log_1.2(101)` as `25.321`; it is
`≈ 25.3131`). -/
theorem c1_dampened_scenario_off :
    ¬ |calculate_score_functional exDampLoved defaultScoringContext - 2025.69| ≤ 0.01 := by
  rw [score_exDampLoved_eq, not_le]
  have hub := pow_ratio_ub
  have h1 : Real.log 101 / Real.log (6 / 5) * 40 * 2 < 2025.056 := by linarith
  have h2 : (2025.69 : ℝ) - Real.log 101 / Real.log (6 / 5) * 40 * 2
      ≤ |Real.log 101 / Real.log (6 / 5) * 40 * 2 - 2025.69| := by
    rw [abs_sub_comm]
    exact le_abs_self _
  linarith

/-- C1 (amended).  Under the default context the score is the claimed
piecewise function of the counters — regimes `early` for `t < 5`,
`learning` for `t ≤ 15`, `stable` for `15 < t < 30`, dampened
`log_1.2(t+1)·(L−S)` for `t ≥ 30`, clamped at 0 and doubled when loved —
and the concrete scenarios evaluate to `7`, `0`, and `≈ 2025.05`
(tolerance `±0.01`; the spec's `2025.69` is corrected). -/
theorem c1_score_piecewise_scenarios :
    (∀ song : Song, calculate_score_functional song defaultScoringContext
        = specPiecewiseScoreDefault song)
    ∧ calculate_score_functional exEarly defaultScoringContext = 7
    ∧ calculate_score_functional exStable defaultScoringContext = 0
    ∧ |calculate_score_functional exDampLoved defaultScoringContext - 2025.05| ≤ 0.01 := by
  refine ⟨?_, score_exEarly_default, score_exStable_default, ?_⟩
  · intro song
    simp only [calculate_score_functional, specPiecewiseScoreDefault,
      defaultScoringContext, calculate_weighted_score, calculate_dampened_score,
      determine_weights, show (2.0 : ℝ) = 2 from by norm_num, apply_love_multiplier_two]
    rcases Nat.lt_or_ge song.touches 30 with h | h
    · rw [if_pos h, if_neg (by omega : ¬ 30 ≤ song.touches)]
    · rw [if_neg (by omega : ¬ song.touches < 30), if_pos h]
  · rw [score_exDampLoved_eq, abs_le]
    have hub := pow_ratio_ub
    have hlb := pow_ratio_lb
    constructor <;> nlinarith

/-- C4.  Counterexample: the claim quantifies over every context with
finite parameters, but with the (finite) love multiplier `-1` a loved
song with a positive clamped base gets a negative score. -/
theorem c4_negative_score_cex :
    calculate_score_functional exLovedSimple negLoveContext < 0 := by
  simp only [calculate_score_functional, exLovedSimple, negLoveContext,
    defaultScoringContext, calculate_weighted_score, determine_weights,
    apply_love_multiplier]
  norm_num

/-- C4 (amended).  For every song and every context whose love
multiplier is nonnegative (as the default `2.0` is), the score is
nonnegative; in this real-valued model every score is trivially a
(finite) real number. -/
theorem c4_score_nonneg (song : Song) (context : ScoringContext)
    (h : 0 ≤ context.love_multiplier) :
    0 ≤ calculate_score_functional song context := by
  unfold calculate_score_functional apply_love_multiplier
  cases hl : song.loved
  · simp only [Bool.false_eq_true, if_false]
    exact le_max_right _ (0 : ℝ)
  · simp only [if_true]
    exact mul_nonneg (le_max_right _ (0 : ℝ)) h

/-- Witness for C4's amended theorem at the default context. -/
theorem c4_score_nonneg_witness :
    0 ≤ calculate_score_functional exEarly defaultScoringContext :=
  c4_score_nonneg exEarly defaultScoringContext (by norm_num [defaultScoringContext])

theorem cacheLookup_cons_self (c : List (SongFingerprint × ℝ)) (fp : SongFingerprint)
    (v : ℝ) : cacheLookup ((fp, v) :: c) fp = some v := by
  simp [cacheLookup]

/-- C6.  Counterexample: the source's global cache is keyed by the song
fingerprint only, not by the context.  Scoring `exEarly` under the
default context (value 7) and then under `altWeightContext` returns the
stale 7, although the pure score under `altWeightContext` is 1. -/
theorem c6_stale_cache_cex :
    (calculate_score_cached (calculate_score_cached [] exEarly defaultScoringContext).2
        exEarly altWeightContext).1
      ≠ calculate_score_functional exEarly altWeightContext := by
  have h7 := score_exEarly_default
  have h1 := score_exEarly_alt
  simp only [calculate_score_cached, cacheLookup, List.find?, List.length,
    List.length_nil, Option.map]
  norm_num [cacheLookup_cons_self, h7, h1]

/-- C6 (amended).  The computation is deterministic relative to the cache
state — a repeated call with the same song and context returns the same
value — and the pure score depends only on the fingerprint
`(touches, listens, skips, loved)` and the context; but (per the
counterexample) a call may return a value cached under a different
context earlier in the process. -/
theorem c6_cached_determinism :
    ∀ (cache : List (SongFingerprint × ℝ)) (song : Song) (context : ScoringContext),
      (calculate_score_cached (calculate_score_cached cache song context).2
          song context).1
        = (calculate_score_cached cache song context).1
      ∧ ∀ song' : Song, songFingerprint song' = songFingerprint song →
          calculate_score_functional song' context
            = calculate_score_functional song context := by
  intro cache song context
  constructor
  · unfold calculate_score_cached
    cases h : cacheLookup cache (songFingerprint song) with
    | some v => simp [h]
    | none =>
      simp only [h, List.length_cons]
      by_cases hlen : 10000 < cache.length + 1
      · simp [hlen, cacheLookup]
      · simp [hlen, cacheLookup_cons_self]
  · intro s' hfp
    have ht : s'.touches = song.touches := congrArg SongFingerprint.touches hfp
    have hl : s'.listens = song.listens := congrArg SongFingerprint.listens hfp
    have hs : s'.skips = song.skips := congrArg SongFingerprint.skips hfp
    have hv : s'.loved = song.loved := congrArg SongFingerprint.loved hfp
    unfold calculate_score_functional calculate_weighted_score
      calculate_dampened_score apply_love_multiplier
    rw [ht, hl, hs, hv]

/-- Witness for C6's amended theorem: two songs sharing a fingerprint
receive the same pure score. -/
theorem c6_cached_determinism_witness :
    calculate_score_functional exEarlyAlt defaultScoringContext
      = calculate_score_functional exEarly defaultScoringContext :=
  (c6_cached_determinism [] exEarly defaultScoringContext).2 exEarlyAlt rfl

/-! ### Connection-table upsert lemmas -/

theorem connLookup_update_self (rows : List ConnRow) (a b : Int) :
    connLookup (update_connection rows a b) a b
      = some ((connLookup rows a b).getD 0 + 1) := by
  induction rows with
  | nil => simp [update_connection, connLookup]
  | cons r rest ih =>
    rw [update_connection]
    by_cases hr : r.fromSongId = a ∧ r.toSongId = b
    · obtain ⟨h1, h2⟩ := hr
      rw [if_pos ⟨h1, h2⟩]
      simp [connLookup, h1, h2]
    · have hpred : (r.fromSongId == a && r.toSongId == b) = false := by
        rw [← Bool.not_eq_true]
        simp only [Bool.and_eq_true, beq_iff_eq]
        exact hr
      rw [if_neg hr]
      simpa [connLookup, hpred] using ih

theorem connLookup_update_other (rows : List ConnRow) (a b a' b' : Int)
    (h : ¬(a' = a ∧ b' = b)) :
    connLookup (update_connection rows a b) a' b' = connLookup rows a' b' := by
  induction rows with
  | nil =>
    have hpred : ((⟨a, b, 1⟩ : ConnRow).fromSongId == a'
        && (⟨a, b, 1⟩ : ConnRow).toSongId == b') = false := by
      rw [← Bool.not_eq_true]
      simp only [Bool.and_eq_true, beq_iff_eq]
      rintro ⟨rfl, rfl⟩
      exact h ⟨rfl, rfl⟩
    simp [update_connection, connLookup, hpred]
  | cons r rest ih =>
    rw [update_connection]
    by_cases hr : r.fromSongId = a ∧ r.toSongId = b
    · obtain ⟨h1, h2⟩ := hr
      have hpred : (r.fromSongId == a' && r.toSongId == b') = false := by
        rw [← Bool.not_eq_true]
        simp only [Bool.and_eq_true, beq_iff_eq]
        rintro ⟨ha, hb⟩
        exact h ⟨by rw [← ha, h1], by rw [← hb, h2]⟩
      rw [if_pos ⟨h1, h2⟩]
      simp [connLookup, hpred]
    · rw [if_neg hr]
      by_cases hp : (r.fromSongId == a' && r.toSongId == b') = true
      · simp [connLookup, hp]
      · have hp' : (r.fromSongId == a' && r.toSongId == b') = false := by
          rwa [Bool.not_eq_true] at hp
        simpa [connLookup, hp'] using ih

theorem keyCount_update (rows : List ConnRow) (a b : Int) :
    keyCount (update_connection rows a b) a b = max (keyCount rows a b) 1 := by
  induction rows with
  | nil => simp [update_connection, keyCount]
  | cons r rest ih =>
    rw [update_connection]
    by_cases hr : r.fromSongId = a ∧ r.toSongId = b
    · obtain ⟨h1, h2⟩ := hr
      rw [if_pos ⟨h1, h2⟩]
      simp [keyCount, List.countP_cons, h1, h2]
    · have hpred : (r.fromSongId == a && r.toSongId == b) = false := by
        rw [← Bool.not_eq_true]
        simp only [Bool.and_eq_true, beq_iff_eq]
        exact hr
      rw [if_neg hr]
      simp only [keyCount, List.countP_cons, hpred] at ih ⊢
      simpa using ih

theorem iterate_update_lookup (rows : List ConnRow) (a b : Int) :
    ∀ k : Nat, connLookup (iterate_update_connection rows a b (k + 1)) a b
      = some ((connLookup rows a b).getD 0 + (k + 1))
  | 0 => connLookup_update_self rows a b
  | k + 1 => by
    have ih := iterate_update_lookup rows a b k
    show connLookup (update_connection (iterate_update_connection rows a b (k + 1)) a b) a b = _
    rw [connLookup_update_self, ih]
    simp only [Option.getD_some]
    exact congrArg some (by omega)

theorem iterate_update_keyCount (rows : List ConnRow) (a b : Int) :
    ∀ k : Nat, keyCount (iterate_update_connection rows a b (k + 1)) a b
      = max (keyCount rows a b) 1
  | 0 => keyCount_update rows a b
  | k + 1 => by
    have ih := iterate_update_keyCount rows a b k
    show keyCount (update_connection (iterate_update_connection rows a b (k + 1)) a b) a b = _
    rw [keyCount_update, ih, max_assoc, max_self]

theorem iterate_update_other (rows : List ConnRow) (a b a' b' : Int)
    (h : ¬(a' = a ∧ b' = b)) :
    ∀ k : Nat, connLookup (iterate_update_connection rows a b k) a' b'
      = connLookup rows a' b'
  | 0 => rfl
  | k + 1 => by
    have ih := iterate_update_other rows a b a' b' h k
    show connLookup (update_connection (iterate_update_connection rows a b k) a b) a' b' = _
    rw [connLookup_update_other _ _ _ _ _ h, ih]

/-- C5.  `update_connection` is an insert-or-increment upsert: after
`k ≥ 1` iterated calls on the edge `(a, b)`, the edge is present with
count exactly `initial + k` (hence `≥ k`), exactly one row matches the
key `(a, b)` provided at most one did before (so no duplicate row is
ever inserted and the key identifies the edge), and every other key's
row is untouched. -/
theorem c5_record_transition_upsert (rows : List ConnRow) (a b : Int) (k : Nat)
    (hk : 1 ≤ k) :
    connLookup (iterate_update_connection rows a b k) a b
        = some ((connLookup rows a b).getD 0 + k)
    ∧ k ≤ (connLookup rows a b).getD 0 + k
    ∧ keyCount (iterate_update_connection rows a b k) a b = max (keyCount rows a b) 1
    ∧ ∀ a' b' : Int, ¬(a' = a ∧ b' = b) →
        connLookup (iterate_update_connection rows a b k) a' b'
          = connLookup rows a' b' := by
  obtain ⟨m, rfl⟩ : ∃ m, k = m + 1 := ⟨k - 1, by omega⟩
  exact ⟨iterate_update_lookup rows a b m, by omega,
    iterate_update_keyCount rows a b m,
    fun a' b' h => iterate_update_other rows a b a' b' h (m + 1)⟩

/-- Witness for C5 at a fresh table and three calls on edge `(1, 2)`. -/
theorem c5_record_transition_upsert_witness :
    connLookup (iterate_update_connection [] 1 2 3) 1 2
      = some ((connLookup ([] : List ConnRow) 1 2).getD 0 + 3) :=
  (c5_record_transition_upsert [] 1 2 3 (by norm_num)).1

/-- C8.  Counterexample: the query orders by `count DESC` only, so with
two tied outgoing edges whose targets appear in table order `3, 2`, the
result violates the claimed id-ascending tie-break. -/
theorem c8_tie_order_cex :
    ¬ List.Pairwise claimOrder (get_song_connections tieConns tieSongs 1) := by
  intro h
  have hout : get_song_connections tieConns tieSongs 1
      = [(songThree, 2), (songTwo, 2)] := by decide
  rw [hout] at h
  have := (List.pairwise_cons.mp h).1 (songTwo, 2) (by simp)
  exact absurd this (by decide)

/-- C8 (amended).  `get_song_connections` returns a permutation of the
joined outgoing edges, sorted by edge count descending; the relative
order of tied rows is whatever the stable sort leaves (the SQL specifies
no tie-break). -/
theorem c8_connections_count_sorted (conns : List ConnRow) (songs : List Song)
    (song_id : Int) :
    List.Sorted countGE (get_song_connections conns songs song_id)
    ∧ (get_song_connections conns songs song_id).Perm
        (joinedConnections conns songs song_id) :=
  ⟨List.sorted_insertionSort countGE _, List.perm_insertionSort countGE _⟩


/-! ### Tracker finalization -/

theorem wasListened_iff (st : PlayingState) (now : ℚ) :
    wasListened st now = true ↔ listenedSpec st now := by
  unfold wasListened listenedSpec
  cases hd : st.duration with
  | some d => simp
  | none =>
    simp only [decide_eq_true_eq]
    rw [Int.le_floor]
    norm_num

theorem hse_listened_stats (db : DbState) (resolve : String → Option Int)
    (st : PlayingState) (next : Option String) (now : ℚ)
    (hw : wasListened st now = true) :
    (handle_song_ended db resolve st next now).stats
      = fun i =>
        if i = st.song_id then
          { touches := (db.stats i).touches, listens := (db.stats i).listens + 1
            skips := (db.stats i).skips }
        else db.stats i := by
  unfold handle_song_ended
  rw [if_pos hw]
  cases next with
  | none =>
    funext i
    simp [update_song_stats, bump]
  | some np =>
    cases hres : resolve np with
    | none =>
      funext i
      simp only [hres]
      simp [update_song_stats, bump]
    | some n =>
      funext i
      simp only [hres]
      simp [update_song_stats, bump]

theorem hse_skipped_eq (db : DbState) (resolve : String → Option Int)
    (st : PlayingState) (next : Option String) (now : ℚ)
    (hw : wasListened st now = false) :
    handle_song_ended db resolve st next now
      = update_song_stats db st.song_id false false true := by
  unfold handle_song_ended
  rw [if_neg (by simp [hw])]

theorem hse_listened_conns_next_none (db : DbState) (resolve : String → Option Int)
    (st : PlayingState) (now : ℚ) (hw : wasListened st now = true) :
    (handle_song_ended db resolve st none now).conns = db.conns := by
  unfold handle_song_ended
  rw [if_pos hw]
  rfl

theorem hse_listened_conns_unresolved (db : DbState) (resolve : String → Option Int)
    (st : PlayingState) (np : String) (now : ℚ) (hw : wasListened st now = true)
    (hres : resolve np = none) :
    (handle_song_ended db resolve st (some np) now).conns = db.conns := by
  unfold handle_song_ended
  rw [if_pos hw]
  simp only [hres]
  rfl

theorem hse_listened_conns_resolved (db : DbState) (resolve : String → Option Int)
    (st : PlayingState) (np : String) (n : Int) (now : ℚ)
    (hw : wasListened st now = true) (hres : resolve np = some n) :
    (handle_song_ended db resolve st (some np) now).conns
      = update_connection db.conns st.song_id n := by
  unfold handle_song_ended
  rw [if_pos hw]
  simp only [hres]
  rfl

theorem wasListened_stNoDur (now : ℚ) (h : (30 : ℚ) ≤ now) :
    wasListened stNoDur now = true := by
  unfold wasListened stNoDur
  simp only [decide_eq_true_eq]
  rw [Int.le_floor]
  push_cast
  linarith

theorem wasListened_stNoDur_false (now : ℚ) (h : now < 30) :
    wasListened stNoDur now = false := by
  unfold wasListened stNoDur
  simp only [decide_eq_false_iff_not]
  rw [Int.le_floor]
  push_cast
  intro hc
  linarith

/-- C2.  Counterexample: an episode of song 1 classified as listened,
whose next path "b" resolves to the known id 2, leaves song 2's touches
counter unchanged — `handle_song_ended` records the connection but never
bumps the next song's touches (that happens only through the separate
3-second rule in `handle_playing_song`). -/
theorem c2_no_touch_bump_cex :
    wasListened stNoDur 40 = true
    ∧ resolveAB "b" = some 2
    ∧ ((handle_song_ended db0 resolveAB stNoDur (some "b") 40).stats 2).touches
        = (db0.stats 2).touches
    ∧ ((handle_song_ended db0 resolveAB stNoDur (some "b") 40).stats 2).touches
        ≠ (db0.stats 2).touches + 1 := by
  have hw : wasListened stNoDur 40 = true := wasListened_stNoDur 40 (by norm_num)
  have hstats := hse_listened_stats db0 resolveAB stNoDur (some "b") 40 hw
  refine ⟨hw, rfl, ?_, ?_⟩
  · rw [hstats]
    norm_num [stNoDur]
  · rw [hstats]
    norm_num [stNoDur]

/-- C2 (amended).  Finalization classifies the episode as listened iff
the play ratio exceeds 0.8 (known duration) or at least 30 seconds were
played (unknown duration); a listen increments exactly the subject's
listens counter and, when the next path resolves to a known id, upserts
the transition edge, incrementing its count — no touches counter is
changed by finalization; a skip increments exactly the subject's skips
counter and records no edge. -/
theorem c2_finalization_effects (db : DbState) (resolve : String → Option Int)
    (st : PlayingState) (next : Option String) (now : ℚ)
    (_hdur : ∀ d, st.duration = some d → 0 < d) :
    (wasListened st now = true ↔ listenedSpec st now)
    ∧ (listenedSpec st now →
        ((handle_song_ended db resolve st next now).stats st.song_id).listens
            = (db.stats st.song_id).listens + 1
        ∧ (∀ i, ((handle_song_ended db resolve st next now).stats i).skips
            = (db.stats i).skips)
        ∧ (∀ i, ((handle_song_ended db resolve st next now).stats i).touches
            = (db.stats i).touches)
        ∧ ((∃ np n, next = some np ∧ resolve np = some n ∧
              (handle_song_ended db resolve st next now).conns
                = update_connection db.conns st.song_id n ∧
              connLookup ((handle_song_ended db resolve st next now).conns) st.song_id n
                = some ((connLookup db.conns st.song_id n).getD 0 + 1))
            ∨ ((next = none ∨ ∃ np, next = some np ∧ resolve np = none) ∧
              (handle_song_ended db resolve st next now).conns = db.conns)))
    ∧ (¬ listenedSpec st now →
        ((handle_song_ended db resolve st next now).stats st.song_id).skips
            = (db.stats st.song_id).skips + 1
        ∧ (∀ i, ((handle_song_ended db resolve st next now).stats i).listens
            = (db.stats i).listens)
        ∧ (∀ i, ((handle_song_ended db resolve st next now).stats i).touches
            = (db.stats i).touches)
        ∧ (handle_song_ended db resolve st next now).conns = db.conns) := by
  refine ⟨wasListened_iff st now, fun hl => ?_, fun hl => ?_⟩
  · have hw : wasListened st now = true := (wasListened_iff st now).mpr hl
    have hstats := hse_listened_stats db resolve st next now hw
    refine ⟨?_, ?_, ?_, ?_⟩
    · rw [hstats]; simp
    · intro i; rw [hstats]; by_cases hi : i = st.song_id <;> simp [hi]
    · intro i; rw [hstats]; by_cases hi : i = st.song_id <;> simp [hi]
    · cases next with
      | none => exact Or.inr ⟨Or.inl rfl, hse_listened_conns_next_none db resolve st now hw⟩
      | some np =>
        cases hres : resolve np with
        | none =>
          exact Or.inr ⟨Or.inr ⟨np, rfl, hres⟩,
            hse_listened_conns_unresolved db resolve st np now hw hres⟩
        | some n =>
          refine Or.inl ⟨np, n, rfl, hres,
            hse_listened_conns_resolved db resolve st np n now hw hres, ?_⟩
          rw [hse_listened_conns_resolved db resolve st np n now hw hres]
          exact connLookup_update_self db.conns st.song_id n
  · have hw : wasListened st now = false := by
      rcases Bool.eq_false_or_eq_true (wasListened st now) with h | h
      · exact absurd ((wasListened_iff st now).mp h) hl
      · exact h
    rw [hse_skipped_eq db resolve st next now hw]
    refine ⟨by simp [update_song_stats, bump], fun i => ?_, fun i => ?_, rfl⟩ <;>
      · simp only [update_song_stats, bump]
        split <;> rfl

/-- Witness for C2's amended theorem: the listened branch at the
counterexample input increments the subject's listens counter. -/
theorem c2_finalization_effects_witness :
    ((handle_song_ended db0 resolveAB stNoDur (some "b") 40).stats 1).listens
      = (db0.stats 1).listens + 1 := by
  have h := (c2_finalization_effects db0 resolveAB stNoDur (some "b") 40
    (fun d hd => by simp [stNoDur] at hd)).2.1 ?_
  · have h1 := h.1
    simpa [stNoDur] using h1
  · show listenedSpec stNoDur 40
    unfold listenedSpec stNoDur
    norm_num

/-- C3.  The daemon double-finalizes an episode: with song "a" (id 1)
being tracked and the newly observed song "b" absent from the catalogue,
`start_tracking_song` fails and the error propagates *before*
`current_state` is reassigned, so the already-finalized state survives
and the next player event finalizes it again — one episode of song 1
gets its skip counter incremented twice.  The spec instead requires the
state to be cleared when the lookup fails, giving at-most-once
finalization. -/
theorem c3_double_finalization_bug :
    (handle_player_event resolveOnlyA none playA 0).1 = some stNoDur
    ∧ (handle_player_event resolveOnlyA (some stNoDur) playB 5)
        = (some stNoDur, [⟨stNoDur, some "b", 5⟩])
    ∧ (handle_player_event resolveOnlyA (some stNoDur) playB 6)
        = (some stNoDur, [⟨stNoDur, some "b", 6⟩])
    ∧ ((apply_finalizations db0 resolveOnlyA
          [⟨stNoDur, some "b", 5⟩, ⟨stNoDur, some "b", 6⟩]).stats 1).skips
        = (db0.stats 1).skips + 2 := by
  have hw5 : wasListened stNoDur 5 = false := wasListened_stNoDur_false 5 (by norm_num)
  have hw6 : wasListened stNoDur 6 = false := wasListened_stNoDur_false 6 (by norm_num)
  refine ⟨rfl, rfl, rfl, ?_⟩
  show ((handle_song_ended (handle_song_ended db0 resolveOnlyA stNoDur (some "b") 5)
      resolveOnlyA stNoDur (some "b") 6).stats 1).skips = (db0.stats 1).skips + 2
  rw [hse_skipped_eq _ _ _ _ _ hw6, hse_skipped_eq _ _ _ _ _ hw5]
  simp [update_song_stats, bump, stNoDur, db0]

/-! ### Path round-trip -/

/-- C7.  For an absolute path strictly under the music root, translating
to a player-relative path and back is the identity. -/
theorem c7_path_roundtrip (root p : FsPath) (rest : List String)
    (habs : p.absolute = true) (hroot : root.absolute = true)
    (hcomp : p.comps = root.comps ++ rest) (hne : rest ≠ []) :
    (absolute_to_mpd_relative root p).bind (mpd_relative_to_absolute root) = some p := by
  obtain ⟨pa, pc⟩ := p
  simp only at habs hcomp
  subst habs
  subst hcomp
  have hpre : root.comps.isPrefixOf (root.comps ++ rest) = true :=
    List.isPrefixOf_iff_prefix.mpr (List.prefix_append _ _)
  have hrest : rest.isEmpty = false := by
    cases rest with
    | nil => exact absurd rfl hne
    | cons a l => rfl
  unfold absolute_to_mpd_relative mpd_relative_to_absolute
  simp [hroot, hpre, hrest, List.drop_left]
  exact hne

/-- Witness for C7 at the concrete root `/home/user/Music`. -/
theorem c7_path_roundtrip_witness :
    (absolute_to_mpd_relative rootMusic absSongPath).bind (mpd_relative_to_absolute rootMusic)
      = some absSongPath :=
  c7_path_roundtrip rootMusic absSongPath ["artist", "song.flac"] rfl rfl rfl
    (List.cons_ne_nil _ _)

/-! ### Queue extension -/

theorem extendLoop_split (visited0 : List String) (table : List Song) (ridx : Nat → Nat) :
    ∀ (left step : Nat) (queue : List Song),
      ∃ app, extendLoop visited0 table ridx left step queue = queue ++ app
        ∧ ∀ s ∈ app, s.path ∉ visited0
  | 0, _, queue => ⟨[], by simp [extendLoop], by simp⟩
  | left + 1, step, queue => by
    cases hr : get_random_song_functional table [] (ridx step) with
    | none => exact ⟨[], by simp [extendLoop, hr], by simp⟩
    | some s =>
      by_cases hp : s.path ∈ visited0
      · exact ⟨[], by simp [extendLoop, hr, hp], by simp⟩
      · obtain ⟨app, happ, hall⟩ :=
          extendLoop_split visited0 table ridx left (step + 1) (queue ++ [s])
        refine ⟨s :: app, ?_, ?_⟩
        · rw [show extendLoop visited0 table ridx (left + 1) step queue
              = extendLoop visited0 table ridx left (step + 1) (queue ++ [s]) from by
            simp [extendLoop, hr, hp]]
          rw [happ, List.append_assoc]
          rfl
        · intro x hx
          rcases List.mem_cons.mp hx with rfl | hx
          · exact hp
          · exact hall x hx

/-- C9.  Counterexample: padding never excludes songs appended earlier
in the same extension (the random draw is taken with an empty exclusion
set and the visited set is never updated), so extending the queue
`[songA9]` with draws that always return `songB9` succeeds with
`songB9` appended eight times — a queue with duplicates. -/
theorem c9_duplicate_extension_cex :
    extend_queue_functionally [songA9] defaultQueueConfig [songA9, songB9] (fun _ => 1)
      = .ok (songA9 :: List.replicate 8 songB9)
    ∧ ¬ (songA9 :: List.replicate 8 songB9).Nodup := by
  constructor
  · decide
  · decide

/-- C9 (amended).  Extension appends only random draws whose path is not
in the *original* queue (appended draws may repeat each other), and
generation fails with `QueueTooShort` exactly when the extension loop
stops — on a draw colliding with the original queue or on an exhausted
catalogue — while the queue is still shorter than `min_length`; any
successful result has at least `min_length` songs. -/
theorem c9_extension (queue : List Song) (config : QueueConfig)
    (table : List Song) (ridx : Nat → Nat)
    (hcfg : config.min_length ≤ config.max_length) :
    (∀ s ∈ (extendLoop (queue.map Song.path) table ridx
        (config.min_length - queue.length) 0 queue).drop queue.length,
        s.path ∉ queue.map Song.path)
    ∧ (extend_queue_functionally queue config table ridx = .error .queueTooShort
        ↔ (extendLoop (queue.map Song.path) table ridx
            (config.min_length - queue.length) 0 queue).length < config.min_length)
    ∧ ∀ q, extend_queue_functionally queue config table ridx = .ok q →
        config.min_length ≤ q.length := by
  obtain ⟨app, happ, hall⟩ := extendLoop_split (queue.map Song.path) table ridx
    (config.min_length - queue.length) 0 queue
  refine ⟨?_, ?_, ?_⟩
  · rw [happ, List.drop_left]
    exact hall
  · simp only [extend_queue_functionally]
    split_ifs with h
    · simp [h]
    · simp [h]
  · intro q hq
    simp only [extend_queue_functionally] at hq
    split_ifs at hq with h
    obtain rfl := Except.ok.inj hq
    rw [List.length_take]
    exact Nat.le_min.mpr ⟨hcfg, by omega⟩

/-- Witness for C9's amended theorem: the successful extension of the
counterexample input indeed reaches the minimum length. -/
theorem c9_extension_witness :
    defaultQueueConfig.min_length ≤ (songA9 :: List.replicate 8 songB9).length :=
  (c9_extension [songA9] defaultQueueConfig [songA9, songB9] (fun _ => 1)
    (by decide)).2.2 (songA9 :: List.replicate 8 songB9) (by decide)

/-! ### Stream queue distinctness -/

theorem foldl_maxStep_mem (xs : List (Song × ℝ)) :
    ∀ x : Song × ℝ, xs.foldl maxStep x ∈ x :: xs := by
  induction xs with
  | nil => intro x; simp
  | cons y ys ih =>
    intro x
    have h := ih (maxStep x y)
    have hxy : maxStep x y = x ∨ maxStep x y = y := by
      unfold maxStep
      split
      · exact Or.inl rfl
      · exact Or.inr rfl
    simp only [List.foldl_cons]
    rcases List.mem_cons.mp h with h | h
    · rcases hxy with h2 | h2 <;> rw [h, h2] <;> simp
    · simp [h]

theorem maxBySnd_mem (l : List (Song × ℝ)) (p : Song × ℝ) (h : maxBySnd l = some p) :
    p ∈ l := by
  cases l with
  | nil => cases h
  | cons x xs =>
    have hp : p = xs.foldl maxStep x := by
      have := Option.some.inj h
      exact this.symm
    rw [hp]
    exact foldl_maxStep_mem xs x

theorem select_next_not_visited (graph : Int → List (Song × Nat)) (current_id : Int)
    (visited : List Int) (explore : Bool) (choose : Nat) (s : Song)
    (h : select_next_song_probabilistically graph current_id visited explore choose
      = some s) :
    s.id ∉ visited := by
  simp only [select_next_song_probabilistically] at h
  split_ifs at h with h1 h2 h3
  · obtain ⟨p, hp, hps⟩ := Option.map_eq_some'.mp h
    have hmem := List.get?_mem hp
    have hin := (List.mem_filter.mp hmem).2
    rw [hps] at hin
    exact of_decide_eq_true hin
  · obtain ⟨p, hp, hps⟩ := Option.map_eq_some'.mp h
    have hmem := maxBySnd_mem _ _ hp
    obtain ⟨c, hc, hcp⟩ := List.mem_map.mp hmem
    have hin := (List.mem_filter.mp hc).2
    have hid : c.1.id = s.id := by
      rw [← hps, ← hcp]
    rw [hid] at hin
    exact of_decide_eq_true hin

theorem get_random_not_visited (table : List Song) (visited : List Int) (ridx : Nat)
    (s : Song) (h : get_random_song_functional table visited ridx = some s) :
    s.id ∉ visited := by
  simp only [get_random_song_functional] at h
  split_ifs at h with h1
  have hmem := List.get?_mem h
  exact of_decide_eq_true (List.mem_filter.mp hmem).2

theorem streamLoop_nodup (graph : Int → List (Song × Nat)) (table : List Song)
    (explore : Nat → Bool) (choose ridx : Nat → Nat) :
    ∀ (left step : Nat) (current_id : Int) (visited : List Int) (queue : List Song),
      (queue.map Song.id).Nodup →
      (∀ i ∈ queue.map Song.id, i ∈ visited) →
      ((streamLoop graph table explore choose ridx left step current_id visited
          queue).map Song.id).Nodup
  | 0, _, _, _, _ => fun hnd _ => by simpa [streamLoop] using hnd
  | left + 1, step, current_id, visited, queue => fun hnd hsub => by
    have hstep : ∀ (s : Song), s.id ∉ visited →
        ((queue ++ [s]).map Song.id).Nodup
        ∧ ∀ i ∈ (queue ++ [s]).map Song.id, i ∈ s.id :: visited := by
      intro s hid
      constructor
      · rw [List.map_append]
        rw [List.nodup_append]
        refine ⟨hnd, by simp, ?_⟩
        intro a ha hb
        rw [List.map_singleton, List.mem_singleton] at hb
        subst hb
        exact hid (hsub _ ha)
      · intro i hi
        rw [List.map_append, List.mem_append] at hi
        rcases hi with hi | hi
        · exact List.mem_cons_of_mem _ (hsub i hi)
        · rw [List.map_singleton, List.mem_singleton] at hi
          subst hi
          exact List.mem_cons_self _ _
    cases hs : select_next_song_probabilistically graph current_id visited
        (explore step) (choose step) with
    | some s =>
      have hid := select_next_not_visited graph current_id visited _ _ s hs
      rw [show streamLoop graph table explore choose ridx (left + 1) step current_id
            visited queue
          = streamLoop graph table explore choose ridx left (step + 1) s.id
            (s.id :: visited) (queue ++ [s]) from by simp [streamLoop, hs]]
      exact streamLoop_nodup graph table explore choose ridx left (step + 1) s.id
        (s.id :: visited) (queue ++ [s]) (hstep s hid).1 (hstep s hid).2
    | none =>
      cases hr : get_random_song_functional table visited (ridx step) with
      | some s =>
        have hid := get_random_not_visited table visited _ s hr
        rw [show streamLoop graph table explore choose ridx (left + 1) step current_id
              visited queue
            = streamLoop graph table explore choose ridx left (step + 1) s.id
              (s.id :: visited) (queue ++ [s]) from by simp [streamLoop, hs, hr]]
        exact streamLoop_nodup graph table explore choose ridx left (step + 1) s.id
          (s.id :: visited) (queue ++ [s]) (hstep s hid).1 (hstep s hid).2
      | none =>
        rw [show streamLoop graph table explore choose ridx (left + 1) step current_id
              visited queue = queue from by simp [streamLoop, hs, hr]]
        exact hnd

/-- C10.  Every queue produced by the Stream strategy lists each song id
at most once: the seed is placed in the visited set before the loop,
every probabilistic or random choice is filtered against the visited
set, and each appended song's id joins the visited set before the next
step. -/
theorem c10_stream_no_duplicates (graph : Int → List (Song × Nat)) (table : List Song)
    (explore : Nat → Bool) (choose ridx : Nat → Nat) (starting_song : Song) :
    ((stream_generate graph table explore choose ridx starting_song).map Song.id).Nodup := by
  unfold stream_generate
  exact streamLoop_nodup graph table explore choose ridx (30 - 1) 0 starting_song.id
    [starting_song.id] [starting_song] (by simp) (by simp)
